import Mathlib

/-!
Verification development for the `sync-sequelize-salesforce` repository,
shallowly embedding `src/lib/sqlize/index.js`: the default-field augmenter
(`addDefaultFields`/`addTimestamps`), the method-result normalizer
(`wrapMethod`), the query/error interceptor (`query`), the engine-version
check (`checkDatabaseVersion`), the meta-seeding step (`initSystemMeta`),
the initialization sequence (`initialize`, embedded as `initSequence`
because `initialize` is a Lean keyword), the version/meta store accessors
(`getSystemMeta`/`getVersion`/`setVersion`) and the derived unique-index
groups (`uniqueIndices`).

JavaScript plain objects are embedded as insertion-ordered association
lists (`ObjMap`): property read is first match, property write replaces in
place when the key exists and appends otherwise, exactly the order
semantics of `Object.assign` and of lodash `transform` accumulators.
-/

namespace SqlizeSpec

/-- A JavaScript plain object: insertion-ordered key/value pairs. -/
abbrev ObjMap (α : Type) : Type := List (String × α)

/-- Property read: the value at the first matching key (JS objects hold a
key once; first match equals the only match). -/
def lookup {α : Type} : ObjMap α → String → Option α
  | [], _ => none
  | (k, v) :: rest, key => if k = key then some v else lookup rest key

/-- Property write (`obj[k] = v`): overwrite in place when the key exists
(keeping its position, as JS does), append otherwise. -/
def assignOne {α : Type} : ObjMap α → String → α → ObjMap α
  | [], key, v => [(key, v)]
  | (k, w) :: rest, key, v =>
      if k = key then (k, v) :: rest else (k, w) :: assignOne rest key v

/-- `Object.assign(m, u)`: write every property of `u` onto `m` in order. -/
def assign {α : Type} (m u : ObjMap α) : ObjMap α :=
  u.foldl (fun acc kv => assignOne acc kv.1 kv.2) m

/-- The keys of an object, in insertion order. -/
def keysOf {α : Type} (m : ObjMap α) : List String :=
  m.map Prod.fst

/-- A JS option value as the source consumes it: absent (`undefined`),
`false`, `true`, or a string. -/
inductive JsOpt : Type where
  | undef : JsOpt
  | fals : JsOpt
  | tru : JsOpt
  | strV : String → JsOpt
deriving DecidableEq

/-- JS truthiness of a `JsOpt` (`false`, `undefined` and the empty string
are falsy). -/
def JsOpt.truthy : JsOpt → Bool
  | JsOpt.tru => true
  | JsOpt.strV s => decide (s ≠ "")
  | _ => false

/-- `opt || d` for a string default `d` (src/lib/sqlize/index.js:105 etc.):
the option itself when truthy, otherwise the default string. -/
def JsOpt.orDefault (opt : JsOpt) (d : String) : JsOpt :=
  if opt.truthy then opt else JsOpt.strV d

/-- The one field type the augmenter uses, `DataTypes.DATE`. -/
inductive DType : Type where
  | date : DType
deriving DecidableEq

/-- A field descriptor as `addTimestamps` builds or passes one through:
column name, the `_autoGenerated` marker, type and nullability. `allowNull
:= none` means the property is not set (Sequelize then defaults to
nullable). -/
structure FieldDesc where
  field : JsOpt := JsOpt.undef
  _autoGenerated : Bool := false
  type : Option DType := none
  allowNull : Option Bool := none
deriving DecidableEq

/-- The options record consumed by the augmenter
(src/lib/sqlize/index.js:101-137). -/
structure Options where
  timestamps : JsOpt := JsOpt.undef
  createdAt : JsOpt := JsOpt.undef
  updatedAt : JsOpt := JsOpt.undef
  deletedAt : JsOpt := JsOpt.undef
deriving DecidableEq

/-- The synthetic `createdAt` descriptor (src/lib/sqlize/index.js:104-113). -/
def createdAtDesc (opt : JsOpt) : FieldDesc :=
  { field := opt.orDefault "created_at", _autoGenerated := true,
    type := some DType.date, allowNull := some false }

/-- The synthetic `updatedAt` descriptor (src/lib/sqlize/index.js:115-124). -/
def updatedAtDesc (opt : JsOpt) : FieldDesc :=
  { field := opt.orDefault "updated_at", _autoGenerated := true,
    type := some DType.date, allowNull := some false }

/-- The synthetic `deletedAt` descriptor (src/lib/sqlize/index.js:126-134):
no `allowNull`, so the column is nullable. -/
def deletedAtDesc (opt : JsOpt) : FieldDesc :=
  { field := opt.orDefault "deleted_at", _autoGenerated := true,
    type := some DType.date }

/-- Embeds `Sqlize#addTimestamps` (src/lib/sqlize/index.js:101-137): build
the `tail` object by `Object.assign` for each flag that is not `false`,
then return `Object.assign({}, fields, tail)`. -/
def addTimestamps (fields : ObjMap FieldDesc) (options : Options) :
    ObjMap FieldDesc :=
  let tail : ObjMap FieldDesc := []
  let tail := if options.createdAt = JsOpt.fals then tail
    else assign tail [("createdAt", createdAtDesc options.createdAt)]
  let tail := if options.updatedAt = JsOpt.fals then tail
    else assign tail [("updatedAt", updatedAtDesc options.updatedAt)]
  let tail := if options.deletedAt = JsOpt.fals then tail
    else assign tail [("deletedAt", deletedAtDesc options.deletedAt)]
  assign (assign [] fields) tail

/-- Embeds `Sqlize#addDefaultFields` (src/lib/sqlize/index.js:96-99):
augment with timestamps only when `options.timestamps` is truthy. -/
def addDefaultFields (fields : ObjMap FieldDesc) (options : Options) :
    ObjMap FieldDesc :=
  if options.timestamps.truthy then addTimestamps fields options else fields

/-- The synthetic fields `addTimestamps` produces, as a plain list: one
entry per flag that is not `false`, in `createdAt`, `updatedAt`,
`deletedAt` order. -/
def timestampTail (options : Options) : ObjMap FieldDesc :=
  (if options.createdAt = JsOpt.fals then []
    else [("createdAt", createdAtDesc options.createdAt)])
  ++ (if options.updatedAt = JsOpt.fals then []
    else [("updatedAt", updatedAtDesc options.updatedAt)])
  ++ (if options.deletedAt = JsOpt.fals then []
    else [("deletedAt", deletedAtDesc options.deletedAt)])

/-- A uniqueness marker on a raw attribute: absent/`false` (falsy), the
boolean `true`, or a named uniqueness group. -/
inductive UniqueMarker : Type where
  | absent : UniqueMarker
  | boolFalse : UniqueMarker
  | boolTrue : UniqueMarker
  | named : String → UniqueMarker
deriving DecidableEq

/-- JS truthiness of a uniqueness marker (the empty string is falsy). -/
def UniqueMarker.truthy : UniqueMarker → Bool
  | UniqueMarker.boolTrue => true
  | UniqueMarker.named g => decide (g ≠ "")
  | _ => false

/-- The string a JS property access `acc[unique]` coerces the marker to:
`true` becomes the key `"true"`, a named group is its own name. -/
def UniqueMarker.asKey : UniqueMarker → String
  | UniqueMarker.absent => "undefined"
  | UniqueMarker.boolFalse => "false"
  | UniqueMarker.boolTrue => "true"
  | UniqueMarker.named g => g

/-- A raw attribute as `uniqueIndices` destructures one:
`{ field, unique }`. -/
structure RawAttr where
  field : String
  unique : UniqueMarker := UniqueMarker.absent
deriving DecidableEq

/-- One step of the lodash `transform` in `uniqueIndices`
(src/lib/sqlize/index.js:233-239): skip falsy markers and groups already
recorded (`acc[unique]`, a JS key access, coerces `true` to the string
key); a boolean marker records a singleton under the field name; a named
group records all fields sharing the marker, in attribute order. -/
def uniqStep (rawAttributes : ObjMap RawAttr) (acc : ObjMap (List String))
    (a : RawAttr) : ObjMap (List String) :=
  if ¬ a.unique.truthy ∨ (lookup acc a.unique.asKey).isSome then acc
  else if a.unique = UniqueMarker.boolTrue then assignOne acc a.field [a.field]
  else assignOne acc a.unique.asKey
    ((rawAttributes.filter (fun kv => kv.2.unique = a.unique)).map
      (fun kv => kv.2.field))

/-- Embeds the `uniqueIndices` static getter (src/lib/sqlize/index.js:231-241):
the `transform` accumulator followed by `Object.values`. -/
def uniqueIndices (rawAttributes : ObjMap RawAttr) : List (List String) :=
  (rawAttributes.foldl (fun acc kv => uniqStep rawAttributes acc kv.2) []).map
    Prod.snd

/-- A JavaScript runtime value, carrying just what the method wrapper
inspects: truthiness, and whether `catch`/`then` are function-valued
properties. `promiseV` is a promise of the canonical constructor
(`this.Sequelize.Promise`). -/
inductive JsValue : Type where
  | undef : JsValue
  | nul : JsValue
  | boolV : Bool → JsValue
  | numV : Int → JsValue
  | strV : String → JsValue
  | objV : (catchFn : Bool) → (thenFn : Bool) → JsValue
  | promiseV : JsValue → JsValue
deriving DecidableEq

/-- JS truthiness of a runtime value. -/
def truthy : JsValue → Bool
  | JsValue.undef => false
  | JsValue.nul => false
  | JsValue.boolV b => b
  | JsValue.numV n => decide (n ≠ 0)
  | JsValue.strV s => decide (s ≠ "")
  | JsValue.objV _ _ => true
  | JsValue.promiseV _ => true

/-- `isFunction(result.catch)`: canonical promises expose `catch`. -/
def hasCatchFn : JsValue → Bool
  | JsValue.objV c _ => c
  | JsValue.promiseV _ => true
  | _ => false

/-- `isFunction(result.then)`: the usual thenable test (stated for the
claims; the source tests `catch`, not `then`). -/
def hasThenFn : JsValue → Bool
  | JsValue.objV _ t => t
  | JsValue.promiseV _ => true
  | _ => false

/-- A thenable: a truthy value exposing a function-valued `then`. -/
def isThenable (v : JsValue) : Bool :=
  truthy v && hasThenFn v

/-- `Promise.resolve(v)` for the canonical constructor: a canonical
promise is returned as is, anything else is wrapped. -/
def promiseResolve : JsValue → JsValue
  | JsValue.promiseV v => JsValue.promiseV v
  | v => JsValue.promiseV v

/-- One invocation of a method wrapped by `wrapMethod`
(src/lib/sqlize/index.js:308-312), acting on the outcome of the original
call (`Except.error` is a synchronous throw): `if (!result ||
!isFunction(result.catch)) return result; return Promise.resolve(result)`. -/
def wrapMethodCall (r : Except JsValue JsValue) : Except JsValue JsValue :=
  match r with
  | Except.error e => Except.error e
  | Except.ok result =>
      if ¬ truthy result ∨ ¬ hasCatchFn result then Except.ok result
      else Except.ok (promiseResolve result)

/-- Equality of `Except` outcomes is decidable (needed to evaluate the
embeddings on concrete inputs). -/
instance exceptDecEq {ε α : Type} [DecidableEq ε] [DecidableEq α] :
    DecidableEq (Except ε α)
  | Except.ok a, Except.ok b =>
      if h : a = b then Decidable.isTrue (by rw [h])
      else Decidable.isFalse (by simp [h])
  | Except.ok _, Except.error _ => Decidable.isFalse (by simp)
  | Except.error _, Except.ok _ => Decidable.isFalse (by simp)
  | Except.error a, Except.error b =>
      if h : a = b then Decidable.isTrue (by rw [h])
      else Decidable.isFalse (by simp [h])

/-- A property of a class or prototype method table: a function is
represented by the outcome of invoking it. -/
inductive ClassProp : Type where
  | funcP : Except JsValue JsValue → ClassProp
  | valueP : JsValue → ClassProp
deriving DecidableEq

/-- Embeds `wrapMethod` at the method-table level
(src/lib/sqlize/index.js:303-317): `constructor` and non-function
properties are left alone; a function-valued property is replaced by its
wrapper. -/
def wrapMethod (object : ObjMap ClassProp) (key : String) : ObjMap ClassProp :=
  if key = "constructor" then object
  else match lookup object key with
    | some (ClassProp.funcP call) =>
        assignOne object key (ClassProp.funcP (wrapMethodCall call))
    | _ => object

/-- An error as the query interceptor consumes one: a message and the
optional offending SQL text. -/
structure JsError where
  message : String := ""
  sql : Option String := none
deriving DecidableEq

/-- What one `query` invocation produces: the outcome the caller observes,
the events emitted on the connection manager, and the error log lines.
Event emission is modelled from the spec (the events module,
src/lib/sqlize/events.js, is not under src/): emitting appends a named
event carrying its payload. -/
structure QueryEffect (α : Type) : Type where
  outcome : Except JsError α
  emitted : List (String × JsError)
  errorLogs : List String
deriving DecidableEq

/-- Embeds `Sqlize#query` (src/lib/sqlize/index.js:214-223) as a function
of the underlying execution's outcome: success passes through; a rejection
is logged, re-emitted once as an `"error"` event with the original error,
and re-rejected with that same error. -/
def query {α : Type} (base : Except JsError α) : QueryEffect α :=
  match base with
  | Except.ok v => { outcome := Except.ok v, emitted := [], errorLogs := [] }
  | Except.error err =>
      { outcome := Except.error err,
        emitted := [("error", err)],
        errorLogs := ["Database error: " ++ err.message] }

/-- Split a character list at every occurrence of `c` (never returns an
empty list of pieces). -/
def splitOnChar (c : Char) : List Char → List (List Char)
  | [] => [[]]
  | x :: rest =>
      let r := splitOnChar c rest
      if x = c then [] :: r
      else match r with
        | [] => [[x]]
        | h :: t => (x :: h) :: t

/-- The numeric value of a decimal digit, `none` for anything else. -/
def digitVal (c : Char) : Option Nat :=
  if c.isDigit then some (c.toNat - 48) else none

/-- Read a decimal number from digits, accumulator style. -/
def digitsToNatAux : List Char → Nat → Option Nat
  | [], acc => some acc
  | c :: rest, acc =>
      match digitVal c with
      | some d => digitsToNatAux rest (acc * 10 + d)
      | none => none

/-- A non-empty all-digit character list as a number. -/
def digitsToNat (l : List Char) : Option Nat :=
  match l with
  | [] => none
  | _ => digitsToNatAux l 0

/-- Gregorian leap year. -/
def isLeap (y : Nat) : Bool :=
  (y % 4 = 0 && y % 100 ≠ 0) || y % 400 = 0

/-- Days in a month (1-12) of year `y`; 0 for an invalid month. -/
def daysInMonth (y m : Nat) : Nat :=
  if m = 1 ∨ m = 3 ∨ m = 5 ∨ m = 7 ∨ m = 8 ∨ m = 10 ∨ m = 12 then 31
  else if m = 4 ∨ m = 6 ∨ m = 9 ∨ m = 11 then 30
  else if m = 2 then (if isLeap y then 29 else 28)
  else 0

/-- Days from 1970-01-01 to year `y`, month `m` (1-12), day `d` (1-based):
the standard civil-from-days inverse (Gregorian, proleptic). -/
def daysFromCivil (y : Int) (m d : Nat) : Int :=
  let yAdj : Int := if m ≤ 2 then y - 1 else y
  let era : Int := (if yAdj ≥ 0 then yAdj else yAdj - 399) / 400
  let yoe : Nat := (yAdj - era * 400).toNat
  let mp : Nat := if m > 2 then m - 3 else m + 9
  let doy : Nat := (153 * mp + 2) / 5 + d - 1
  let doe : Nat := yoe * 365 + yoe / 4 - yoe / 100 + doy
  era * 146097 + (doe : Int) - 719468

/-- Parse a `YYYY-MM-DD` date as days since the epoch, validating month
and day ranges. -/
def parseDatePart (l : List Char) : Option Int :=
  match splitOnChar '-' l with
  | [ys, ms, ds] =>
      if ys.length = 4 ∧ ms.length = 2 ∧ ds.length = 2 then
        match digitsToNat ys, digitsToNat ms, digitsToNat ds with
        | some y, some m, some d =>
            if 1 ≤ m ∧ m ≤ 12 ∧ 1 ≤ d ∧ d ≤ daysInMonth y m then
              some (daysFromCivil (y : Int) m d)
            else none
        | _, _, _ => none
      else none
  | _ => none

/-- Fractional seconds (1-3 digits) as milliseconds. -/
def fracToMillis (l : List Char) : Option Nat :=
  match digitsToNat l with
  | none => none
  | some v =>
      if l.length = 1 then some (v * 100)
      else if l.length = 2 then some (v * 10)
      else if l.length = 3 then some v
      else none

/-- Parse an `HH:MM:SS` or `HH:MM:SS.mmm` UTC time (the trailing `Z`
already removed) as milliseconds into the day. -/
def parseTimePart (l : List Char) : Option Nat :=
  match splitOnChar ':' l with
  | [hs, ms, ss] =>
      if hs.length = 2 ∧ ms.length = 2 then
        match digitsToNat hs, digitsToNat ms with
        | some h, some m =>
            if h ≤ 23 ∧ m ≤ 59 then
              match splitOnChar '.' ss with
              | [sec] =>
                  if sec.length = 2 then
                    match digitsToNat sec with
                    | some s =>
                        if s ≤ 59 then some (((h * 60 + m) * 60 + s) * 1000)
                        else none
                    | none => none
                  else none
              | [sec, frac] =>
                  if sec.length = 2 then
                    match digitsToNat sec, fracToMillis frac with
                    | some s, some f =>
                        if s ≤ 59 then
                          some (((h * 60 + m) * 60 + s) * 1000 + f)
                        else none
                    | _, _ => none
                  else none
              | _ => none
            else none
        | _, _ => none
      else none
  | _ => none

/-- Modelled from the spec: the `date-fns` `parseISO` consumed at
src/lib/sqlize/index.js:263 (an external dependency), restricted to the
complete UTC ISO-8601 form `YYYY-MM-DDTHH:MM:SS[.mmm]Z` (the canonical
form `Date#toISOString` produces, matching the data model: data mapping
keyed by model name -> ISO-8601 timestamp). Returns milliseconds since the
epoch; `none` stands for an Invalid Date. -/
def parseISO (s : String) : Option Int :=
  match splitOnChar 'T' s.toList with
  | [datePart, timePart] =>
      match timePart.getLast? with
      | some z =>
          if z = 'Z' then
            match parseDatePart datePart, parseTimePart timePart.dropLast with
            | some days, some millis => some (days * 86400000 + (millis : Int))
            | _, _ => none
          else none
      | none => none
  | _ => none

/-- Modelled from the spec: the required sibling `SystemMeta` model (not
under src/) holds a unique `name` key and a free-form `data` mapping; for
the `"versions"` record the mapping is keyed by model name and holds an
ISO-8601 timestamp string. -/
structure SystemMetaRec where
  name : String
  data : ObjMap String := []
deriving DecidableEq

/-- The persisted SystemMeta rows. -/
abbrev MetaStore : Type := List SystemMetaRec

/-- The first row whose unique `name` matches. -/
def findRec : MetaStore → String → Option SystemMetaRec
  | [], _ => none
  | r :: rest, n => if r.name = n then some r else findRec rest n

/-- Modelled from the spec: `SystemMeta.findOrCreate({ where: { name } })`
consumed by `getSystemMeta` (src/lib/sqlize/index.js:253-257) — return the
existing row, or insert a fresh one with an empty data mapping. -/
def findOrCreate (store : MetaStore) (n : String) : SystemMetaRec × MetaStore :=
  match findRec store n with
  | some r => (r, store)
  | none =>
      let r : SystemMetaRec := { name := n, data := [] }
      (r, store ++ [r])

/-- Modelled from the spec: `sm.save()` persists the instance — replace
the row carrying the same unique name (append when somehow absent). -/
def saveRec : MetaStore → SystemMetaRec → MetaStore
  | [], r => [r]
  | x :: rest, r => if x.name = r.name then r :: rest else x :: saveRec rest r

/-- Embeds the static `getSystemMeta` (src/lib/sqlize/index.js:253-257):
find-or-create the row named `n`, returning it with the resulting store. -/
def getSystemMeta (store : MetaStore) (n : String) :
    SystemMetaRec × MetaStore :=
  findOrCreate store n

/-- Embeds the static `getVersion` (src/lib/sqlize/index.js:259-264) for
the model named `modelName`: find-or-create the `"versions"` row, read
`data[modelName]`; a falsy entry (absent or empty) yields `new Date(0)`
(the epoch, `some 0`), anything else is parsed with `parseISO` (`none`
stands for an Invalid Date). Also returns the store after the
find-or-create. -/
def getVersion (store : MetaStore) (modelName : String) :
    Option Int × MetaStore :=
  let p := getSystemMeta store "versions"
  match lookup p.1.data modelName with
  | some v => (if v = "" then some 0 else parseISO v, p.2)
  | none => (some 0, p.2)

/-- Embeds the static `setVersion` (src/lib/sqlize/index.js:266-271):
find-or-create the `"versions"` row, set `data[modelName] = version`, and
save. -/
def setVersion (store : MetaStore) (modelName version : String) : MetaStore :=
  let p := getSystemMeta store "versions"
  saveRec p.2 { p.1 with data := assignOne p.1.data modelName version }

/-- The connection-manager state and environment the initialization
sequence consumes. Behavior delegated to external dependencies is carried
as data: `auth` is the outcome of `this.authenticate()` (Sequelize),
`databaseVersion` the engine version string reported by
`databaseVersion()`, `semverSatisfies` the predicate
`semver.satisfies(semver.coerce(version), range)` (the semver package),
`migrationFiles` the files of the migration descriptors
`this.migrate()` resolves with (umzug), `pkgName`/`pkgEngines` the
`name`/`engines` entries of the package descriptor, `registeredModels` the
keys of `this.$models` set by `register`, `sequelizeDefined` the models
defined directly in the underlying Sequelize registry, and `store` the
SystemMeta rows. -/
structure SqlizeState where
  dialect : String
  pkgName : String
  pkgEngines : String → Option String
  semverSatisfies : String → String → Bool
  databaseVersion : String
  auth : Except JsError Unit
  migrationFiles : Except JsError (List String)
  registeredModels : List String
  sequelizeDefined : List String
  store : MetaStore

/-- What `checkDatabaseVersion` produces: the outcome (`Except.ok` stands
for returning `this`), the info log lines and the error log lines. -/
structure CheckOutcome where
  outcome : Except JsError Unit
  infoLogs : List String
  errorLogs : List String

/-- The fatal-error message `checkDatabaseVersion` constructs
(src/lib/sqlize/index.js:178). -/
def requiresMsg (env : SqlizeState) (range : String) : String :=
  "\"" ++ env.pkgName ++ "\" requires " ++ env.dialect ++ " " ++ range

/-- Embeds `Sqlize#checkDatabaseVersion` (src/lib/sqlize/index.js:171-181):
log the reported version; pass when the package descriptor records no
range for the dialect; pass when the reported version satisfies the range;
otherwise log the error and throw an error naming the package, the dialect
and the required range. -/
def checkDatabaseVersion (env : SqlizeState) : CheckOutcome :=
  let infoLogs := [env.dialect ++ " version: " ++ env.databaseVersion]
  match env.pkgEngines env.dialect with
  | none => { outcome := Except.ok (), infoLogs := infoLogs, errorLogs := [] }
  | some range =>
      if env.semverSatisfies env.databaseVersion range then
        { outcome := Except.ok (), infoLogs := infoLogs, errorLogs := [] }
      else
        { outcome := Except.error { message := requiresMsg env range },
          infoLogs := infoLogs,
          errorLogs := [requiresMsg env range] }

/-- Embeds the patched `Sqlize#model` (src/lib/sqlize/index.js:77-79),
`this.$models[name] || super.model(name)`, composed with the external
dependency it falls back to: in sequelize v5 (the version this repository
pins; see the v5.12.2 reference at src/lib/sqlize/index.js:321)
`Sequelize#model` throws `` name + " has not been defined" `` for a model
that was never defined, and never returns a falsy value. `Except.ok none`
(a falsy lookup result) is therefore unreachable, but the type keeps it so
the caller's falsy guard can be embedded faithfully. -/
def modelLookup (env : SqlizeState) (name : String) :
    Except JsError (Option Unit) :=
  if name ∈ env.registeredModels then Except.ok (some ())
  else if name ∈ env.sequelizeDefined then Except.ok (some ())
  else Except.error { message := name ++ " has not been defined" }

/-- Modelled from the spec: `SystemMeta.bulkCreate(items, {
ignoreDuplicates: true })` (src/lib/sqlize/index.js:168) inserts each item
and ignores the insert when a row with the same unique name exists
(idempotent). -/
def bulkCreateIgnoreDup (store : MetaStore) (items : List SystemMetaRec) :
    MetaStore :=
  items.foldl (fun s r => if (findRec s r.name).isSome then s else s ++ [r])
    store

/-- Embeds `Sqlize#initSystemMeta` (src/lib/sqlize/index.js:164-169): look
the `"SystemMeta"` model up, return early when the lookup result is falsy
(`Except.ok none` — dead in practice, the lookup throws instead), map each
record entry `(name, data)` to an item and bulk-insert ignoring
duplicates. -/
def initSystemMeta (env : SqlizeState) (records : ObjMap (ObjMap String)) :
    Except JsError MetaStore :=
  match modelLookup env "SystemMeta" with
  | Except.error e => Except.error e
  | Except.ok none => Except.ok env.store
  | Except.ok (some _) =>
      let items := records.map
        (fun kv => ({ name := kv.1, data := kv.2 } : SystemMetaRec))
      Except.ok (bulkCreateIgnoreDup env.store items)

/-- What `initialize` resolves with: the connection-manager instance
itself (`return this`), or `undefined` (the bare `return`). -/
inductive InitReturn : Type where
  | self : InitReturn
  | undef : InitReturn
deriving DecidableEq

/-- Embeds `Sqlize#initialize` (src/lib/sqlize/index.js:150-162; named
`initSequence` here because `initialize` is a Lean keyword): await
authentication, the engine-version check and the migration run; when the
executed-migration file list is empty, return (undefined) at once;
otherwise log the files, seed the system metadata and return the instance.
The resulting SystemMeta store is carried alongside the return value. -/
def initSequence (env : SqlizeState) : Except JsError (InitReturn × MetaStore) :=
  match env.auth with
  | Except.error e => Except.error e
  | Except.ok _ =>
      match (checkDatabaseVersion env).outcome with
      | Except.error e => Except.error e
      | Except.ok _ =>
          match env.migrationFiles with
          | Except.error e => Except.error e
          | Except.ok files =>
              if files.isEmpty then
                Except.ok (InitReturn.undef, env.store)
              else
                match initSystemMeta env [("versions", [])] with
                | Except.error e => Except.error e
                | Except.ok store2 => Except.ok (InitReturn.self, store2)

/-- A concrete environment whose initialization succeeds with exactly one
executed migration: authentication succeeds, no engine range is recorded
(the check passes), the `SystemMeta` model is registered, the store starts
empty. -/
def envOneMigration : SqlizeState :=
  { dialect := "postgres", pkgName := "sync-sequelize-salesforce",
    pkgEngines := fun _ => none, semverSatisfies := fun _ _ => true,
    databaseVersion := "9.6.1", auth := Except.ok (),
    migrationFiles := Except.ok ["20200101-setup.js"],
    registeredModels := ["SystemMeta"], sequelizeDefined := [], store := [] }

/-- The same environment with an empty executed-migration list. -/
def envZeroMigrations : SqlizeState :=
  { envOneMigration with migrationFiles := Except.ok [] }

/-- The same environment with the `"versions"` record already present. -/
def envSeeded : SqlizeState :=
  { envOneMigration with
    store := [{ name := "versions",
                data := [("Foo", "1970-01-01T00:00:01.000Z")] }] }

/-- The same environment with no model named `SystemMeta` anywhere. -/
def envNoSystemMeta : SqlizeState :=
  { envOneMigration with registeredModels := [], sequelizeDefined := [] }

/-- An environment whose package descriptor records an engine range the
reported version does not satisfy. -/
def envRangeFail : SqlizeState :=
  { envOneMigration with
    pkgEngines := fun d => if d = "postgres" then some ">=9.6" else none,
    semverSatisfies := fun _ _ => false, databaseVersion := "9.4.0" }

/-- The same environment with a reported version inside the range. -/
def envRangePass : SqlizeState :=
  { envRangeFail with
    semverSatisfies := fun _ _ => true,
    databaseVersion := "9.6.1" }

/-! Helper lemmas about the JS-object embedding. -/

theorem lookup_assignOne_self {α : Type} (m : ObjMap α) (k : String) (v : α) :
    lookup (assignOne m k v) k = some v := by
  induction m with
  | nil => simp [assignOne, lookup]
  | cons x rest ih =>
      obtain ⟨k1, v1⟩ := x
      by_cases hk : k1 = k
      · simp [assignOne, hk, lookup]
      · simp [assignOne, hk, lookup, ih]

theorem assignOne_eq_append {α : Type} {m : ObjMap α} {k : String} (v : α)
    (h : lookup m k = none) : assignOne m k v = m ++ [(k, v)] := by
  induction m with
  | nil => rfl
  | cons x rest ih =>
      obtain ⟨k1, v1⟩ := x
      by_cases hk : k1 = k
      · simp [lookup, hk] at h
      · have h2 : lookup rest k = none := by simpa [lookup, hk] using h
        simp [assignOne, hk, ih h2]

theorem lookup_append_of_none {α : Type} {a : ObjMap α} (b : ObjMap α)
    {k : String} (h : lookup a k = none) :
    lookup (a ++ b) k = lookup b k := by
  induction a with
  | nil => rfl
  | cons x rest ih =>
      obtain ⟨k1, v1⟩ := x
      by_cases hk : k1 = k
      · simp [lookup, hk] at h
      · have h2 : lookup rest k = none := by simpa [lookup, hk] using h
        simp [lookup, hk, ih h2]

theorem assign_eq_append {α : Type} (u : ObjMap α) : ∀ m : ObjMap α,
    (∀ k, k ∈ keysOf u → lookup m k = none) → (keysOf u).Nodup →
    assign m u = m ++ u := by
  induction u with
  | nil => intro m _ _; simp [assign]
  | cons x rest ih =>
      intro m h hnd
      obtain ⟨k, v⟩ := x
      have hm : lookup m k = none := h k (by simp [keysOf])
      have hnd1 : (k :: keysOf rest).Nodup := by
        simpa only [keysOf, List.map_cons] using hnd
      have hk_not : k ∉ keysOf rest := (List.nodup_cons.mp hnd1).1
      have hnd2 : (keysOf rest).Nodup := (List.nodup_cons.mp hnd1).2
      have step : assign m ((k, v) :: rest) = assign (m ++ [(k, v)]) rest := by
        simp [assign, assignOne_eq_append v hm]
      rw [step, ih (m ++ [(k, v)]) ?_ hnd2]
      · simp
      · intro k2 hk2
        have hne : k ≠ k2 := fun he => hk_not (he ▸ hk2)
        have hm2 : lookup m k2 = none := h k2 (by simp [keysOf] at hk2 ⊢; tauto)
        rw [lookup_append_of_none _ hm2]
        simp [lookup, hne]

theorem addTimestamps_tail (fields : ObjMap FieldDesc) (options : Options) :
    addTimestamps fields options
      = assign (assign [] fields) (timestampTail options) := by
  by_cases hc : options.createdAt = JsOpt.fals <;>
  by_cases hu : options.updatedAt = JsOpt.fals <;>
  by_cases hd : options.deletedAt = JsOpt.fals <;>
  simp [addTimestamps, timestampTail, hc, hu, hd, assign, assignOne]

theorem timestampTail_keys (options : Options) (k : String)
    (hk : k ∈ keysOf (timestampTail options)) :
    k = "createdAt" ∨ k = "updatedAt" ∨ k = "deletedAt" := by
  by_cases hc : options.createdAt = JsOpt.fals <;>
  by_cases hu : options.updatedAt = JsOpt.fals <;>
  by_cases hd : options.deletedAt = JsOpt.fals <;>
  simp [timestampTail, keysOf, hc, hu, hd] at hk <;> tauto

theorem timestampTail_nodup (options : Options) :
    (keysOf (timestampTail options)).Nodup := by
  by_cases hc : options.createdAt = JsOpt.fals <;>
  by_cases hu : options.updatedAt = JsOpt.fals <;>
  by_cases hd : options.deletedAt = JsOpt.fals <;>
  simp [timestampTail, keysOf, hc, hu, hd]

/-- Claim C4 (amended): for every field mapping whose keys avoid the three
synthetic names, the augmenter returns the original fields first, in
order, followed by exactly those synthetic fields whose option flag is not
`false` (`createdAt`/`updatedAt` non-nullable generated date fields,
`deletedAt` a nullable generated date field); with `timestamps` set to
`false` the output is the input. -/
theorem addDefaultFields_appends_synthetics (fields : ObjMap FieldDesc)
    (options : Options)
    (hnd : (keysOf fields).Nodup)
    (h1 : lookup fields "createdAt" = none)
    (h2 : lookup fields "updatedAt" = none)
    (h3 : lookup fields "deletedAt" = none) :
    (options.timestamps.truthy = true →
      addDefaultFields fields options = fields ++ timestampTail options)
    ∧ (options.timestamps = JsOpt.fals →
      addDefaultFields fields options = fields) := by
  constructor
  · intro ht
    rw [addDefaultFields, if_pos ht, addTimestamps_tail]
    have base : assign ([] : ObjMap FieldDesc) fields = fields := by
      have h0 := assign_eq_append fields [] (fun k _ => rfl) hnd
      simpa using h0
    rw [base]
    apply assign_eq_append
    · intro k hk
      rcases timestampTail_keys options k hk with h | h | h <;> rw [h] <;>
        assumption
    · exact timestampTail_nodup options
  · intro hf
    rw [addDefaultFields, if_neg]
    rw [hf]
    simp [JsOpt.truthy]

/-- Witness for C4: a one-field mapping gains exactly the three synthetic
fields with `timestamps` truthy, and is unchanged with `timestamps` false. -/
theorem addDefaultFields_appends_synthetics_inst :
    addDefaultFields [("id", ({} : FieldDesc))] { timestamps := JsOpt.tru }
      = [("id", ({} : FieldDesc))] ++ timestampTail { timestamps := JsOpt.tru }
    ∧ addDefaultFields [("id", ({} : FieldDesc))] { timestamps := JsOpt.fals }
      = [("id", ({} : FieldDesc))] :=
  ⟨(addDefaultFields_appends_synthetics [("id", {})] { timestamps := JsOpt.tru }
      (by decide) rfl rfl rfl).1 rfl,
   (addDefaultFields_appends_synthetics [("id", {})] { timestamps := JsOpt.fals }
      (by decide) rfl rfl rfl).2 rfl⟩

/-- Counterexample for C4 as stated: when the input mapping already holds
the key `createdAt`, `Object.assign` overwrites the original descriptor in
place, so the output is not the original fields followed by the synthetic
ones. -/
theorem addDefaultFields_collision_overwrites :
    addDefaultFields [("createdAt", ({ field := JsOpt.strV "c" } : FieldDesc))]
        { timestamps := JsOpt.tru }
      = [("createdAt", createdAtDesc JsOpt.undef),
         ("updatedAt", updatedAtDesc JsOpt.undef),
         ("deletedAt", deletedAtDesc JsOpt.undef)]
    ∧ addDefaultFields [("createdAt", ({ field := JsOpt.strV "c" } : FieldDesc))]
        { timestamps := JsOpt.tru }
      ≠ [("createdAt", ({ field := JsOpt.strV "c" } : FieldDesc))]
        ++ timestampTail { timestamps := JsOpt.tru } := by
  constructor
  · decide
  · decide

/-- Claim C9 (amended): for two fields sharing a named uniqueness group
and a third field with the boolean marker, the derived groups are the
named group (members in field order) followed by the boolean singleton —
provided the group name is non-empty, is not the string `"true"`, and
differs from the boolean-unique field's column name (the accumulator is
keyed by JS object keys, which coerce the boolean marker to `"true"`). -/
theorem uniqueIndices_named_and_bool (na nb nc fa fb fc g : String)
    (hg : g ≠ "") (hgt : g ≠ "true") (hfc : fc ≠ g) :
    uniqueIndices
      [(na, { field := fa, unique := UniqueMarker.named g }),
       (nb, { field := fb, unique := UniqueMarker.named g }),
       (nc, { field := fc, unique := UniqueMarker.boolTrue })]
      = [[fa, fb], [fc]] := by
  simp [uniqueIndices, uniqStep, UniqueMarker.truthy, UniqueMarker.asKey,
    lookup, assignOne, hg, hgt, Ne.symm hfc]

/-- Witness for C9 at concrete names. -/
theorem uniqueIndices_named_and_bool_inst :
    uniqueIndices
      [("x", { field := "a", unique := UniqueMarker.named "grp" }),
       ("y", { field := "b", unique := UniqueMarker.named "grp" }),
       ("z", { field := "c", unique := UniqueMarker.boolTrue })]
      = [["a", "b"], ["c"]] :=
  uniqueIndices_named_and_bool "x" "y" "z" "a" "b" "c" "grp"
    (by decide) (by decide) (by decide)

/-- Counterexample for C9 as stated: a group named `"true"` collides with
the JS key the boolean marker coerces to, so the boolean singleton is
dropped and the derived groups are not one per constraint plus one per
boolean-unique field. -/
theorem uniqueIndices_true_name_collision :
    uniqueIndices
      [("x", { field := "a", unique := UniqueMarker.named "true" }),
       ("y", { field := "b", unique := UniqueMarker.named "true" }),
       ("z", { field := "c", unique := UniqueMarker.boolTrue })]
      = [["a", "b"]]
    ∧ uniqueIndices
      [("x", { field := "a", unique := UniqueMarker.named "true" }),
       ("y", { field := "b", unique := UniqueMarker.named "true" }),
       ("z", { field := "c", unique := UniqueMarker.boolTrue })]
      ≠ [["a", "b"], ["c"]] := by
  constructor
  · decide
  · decide

/-- Claim C10 (amended): a wrapped method propagates synchronous throws
unchanged; a result that is truthy and exposes a function-valued `catch`
is coerced through the canonical promise constructor; every other result —
thenables without `catch` included — is returned unchanged. -/
theorem wrapMethodCall_catch_coercion (e v : JsValue) :
    wrapMethodCall (Except.error e) = Except.error e
    ∧ ((truthy v && hasCatchFn v) = true →
        wrapMethodCall (Except.ok v) = Except.ok (promiseResolve v))
    ∧ ((truthy v && hasCatchFn v) = false →
        wrapMethodCall (Except.ok v) = Except.ok v) := by
  refine ⟨rfl, fun h => ?_, fun h => ?_⟩
  · rw [Bool.and_eq_true] at h
    simp [wrapMethodCall, h.1, h.2]
  · cases ht : truthy v <;> cases hc : hasCatchFn v <;>
      simp [ht, hc] at h ⊢ <;> simp [wrapMethodCall, ht, hc]

/-- Witness for C10: a catch-bearing object is coerced, a number passes
through, a synchronous throw propagates. -/
theorem wrapMethodCall_catch_coercion_inst :
    wrapMethodCall (Except.ok (JsValue.objV true true))
      = Except.ok (JsValue.promiseV (JsValue.objV true true))
    ∧ wrapMethodCall (Except.ok (JsValue.numV 7)) = Except.ok (JsValue.numV 7)
    ∧ wrapMethodCall (Except.error (JsValue.strV "boom"))
      = Except.error (JsValue.strV "boom") :=
  ⟨(wrapMethodCall_catch_coercion (JsValue.strV "boom")
      (JsValue.objV true true)).2.1 rfl,
   (wrapMethodCall_catch_coercion (JsValue.strV "boom")
      (JsValue.numV 7)).2.2 rfl,
   (wrapMethodCall_catch_coercion (JsValue.strV "boom")
      (JsValue.numV 7)).1⟩

/-- Counterexample for C10 as stated: a thenable without a function-valued
`catch` is returned unchanged, not coerced through the canonical promise
constructor (the source tests `catch`, not `then`). -/
theorem wrapMethodCall_thenable_unchanged :
    isThenable (JsValue.objV false true) = true
    ∧ wrapMethodCall (Except.ok (JsValue.objV false true))
        = Except.ok (JsValue.objV false true)
    ∧ JsValue.objV false true ≠ promiseResolve (JsValue.objV false true) := by
  refine ⟨rfl, by decide, by decide⟩

/-- Claim C5: a rejected query execution is re-emitted exactly once as an
`"error"` event carrying the originating error and the caller still
observes the original rejection; a successful execution passes through
unchanged with no event. -/
theorem query_rejection_single_emit (α : Type) (e : JsError) (v : α) :
    query (Except.error e : Except JsError α)
      = { outcome := Except.error e, emitted := [("error", e)],
          errorLogs := ["Database error: " ++ e.message] }
    ∧ query (Except.ok v)
      = { outcome := Except.ok v, emitted := [], errorLogs := [] } :=
  ⟨rfl, rfl⟩

/-- Witness for C5 at a concrete error and result type. -/
theorem query_rejection_single_emit_inst :
    query (Except.error { message := "bad sql" } : Except JsError Nat)
      = { outcome := Except.error { message := "bad sql" },
          emitted := [("error", { message := "bad sql" })],
          errorLogs := ["Database error: bad sql"] }
    ∧ query (Except.ok 3 : Except JsError Nat)
      = { outcome := Except.ok 3, emitted := [], errorLogs := [] } :=
  query_rejection_single_emit Nat { message := "bad sql" } 3

/-! Helper lemmas about the SystemMeta store. -/

theorem findRec_name {store : MetaStore} {n : String} {r : SystemMetaRec}
    (h : findRec store n = some r) : r.name = n := by
  induction store with
  | nil => simp [findRec] at h
  | cons x rest ih =>
      by_cases hx : x.name = n
      · have hxr : x = r := by simpa [findRec, hx] using h
        rw [← hxr]; exact hx
      · exact ih (by simpa [findRec, hx] using h)

theorem findRec_append_of_none {a : MetaStore} (b : MetaStore) {n : String}
    (h : findRec a n = none) : findRec (a ++ b) n = findRec b n := by
  induction a with
  | nil => rfl
  | cons x rest ih =>
      by_cases hx : x.name = n
      · simp [findRec, hx] at h
      · have h2 : findRec rest n = none := by simpa [findRec, hx] using h
        simp [findRec, hx, ih h2]

theorem findRec_saveRec_self {store : MetaStore} {r : SystemMetaRec}
    {n : String} (hn : r.name = n) (hs : (findRec store n).isSome = true) :
    findRec (saveRec store r) n = some r := by
  induction store with
  | nil => simp [findRec] at hs
  | cons x rest ih =>
      by_cases hx : x.name = r.name
      · simp [saveRec, hx, findRec, hn]
      · have hxn : ¬ x.name = n := fun he => hx (he.trans hn.symm)
        have hs2 : (findRec rest n).isSome = true := by
          simpa [findRec, hxn] using hs
        simp [saveRec, hx, findRec, hxn, ih hs2]

theorem getSystemMeta_name (store : MetaStore) (n : String) :
    (getSystemMeta store n).1.name = n := by
  unfold getSystemMeta findOrCreate
  cases hf : findRec store n with
  | none => rfl
  | some r => simpa using findRec_name hf

theorem getSystemMeta_found (store : MetaStore) (n : String) :
    (findRec (getSystemMeta store n).2 n).isSome = true := by
  unfold getSystemMeta findOrCreate
  cases hf : findRec store n with
  | none =>
      have : findRec (store ++ [{ name := n, data := [] }]) n
          = findRec [{ name := n, data := [] }] n :=
        findRec_append_of_none _ hf
      simp [this, findRec]
  | some r => simp [hf]

theorem parseISO_empty : parseISO "" = none := rfl

theorem getSystemMeta_of_findRec {s : MetaStore} {r : SystemMetaRec}
    (h : findRec s "versions" = some r) :
    getSystemMeta s "versions" = (r, s) := by
  unfold getSystemMeta findOrCreate
  rw [h]

/-- Claim C7: `setVersion` with an ISO-8601 timestamp `T` followed by
`getVersion` on the same model returns the timestamp `T` denotes (the
round-trip through the `"versions"` system-metadata record), from any
starting store. -/
theorem setVersion_getVersion_roundtrip (store : MetaStore) (m T : String)
    (t : Int) (h : parseISO T = some t) :
    (getVersion (setVersion store m T) m).1 = some t := by
  have hT : ¬ T = "" := by
    intro h0
    rw [h0, parseISO_empty] at h
    exact Option.noConfusion h
  have hname : ({ (getSystemMeta store "versions").1 with
      data := assignOne (getSystemMeta store "versions").1.data m T }
        : SystemMetaRec).name = "versions" :=
    getSystemMeta_name store "versions"
  have hsave := findRec_saveRec_self hname (getSystemMeta_found store "versions")
  have hset : setVersion store m T
      = saveRec (getSystemMeta store "versions").2
          { (getSystemMeta store "versions").1 with
            data := assignOne (getSystemMeta store "versions").1.data m T } :=
    rfl
  rw [hset]
  unfold getVersion
  rw [getSystemMeta_of_findRec hsave]
  simp only [lookup_assignOne_self]
  rw [if_neg hT]
  exact h

/-- Witness for C7: the round-trip at a concrete store, model and
timestamp. -/
theorem setVersion_getVersion_roundtrip_inst :
    (getVersion (setVersion [] "Foo" "1970-01-01T00:00:01.000Z") "Foo").1
      = some 1000 :=
  setVersion_getVersion_roundtrip [] "Foo" "1970-01-01T00:00:01.000Z" 1000
    (by decide)

/-- Claim C8: `getVersion` finds-or-creates the singleton `"versions"`
record and reads its data entry for the model name: the epoch (`some 0`)
when the entry is absent, the parsed timestamp when present; and a
`"versions"` record exists in the resulting store. -/
theorem getVersion_reads_versions_entry (store : MetaStore) (m : String) :
    (lookup (getSystemMeta store "versions").1.data m = none →
      (getVersion store m).1 = some 0)
    ∧ (∀ v t, lookup (getSystemMeta store "versions").1.data m = some v →
        parseISO v = some t → (getVersion store m).1 = some t)
    ∧ (findRec (getVersion store m).2 "versions").isSome = true := by
  refine ⟨fun h => ?_, fun v t hv hp => ?_, ?_⟩
  · unfold getVersion
    simp only [h]
  · have hv_ne : ¬ v = "" := by
      intro h0
      rw [h0, parseISO_empty] at hp
      exact Option.noConfusion hp
    unfold getVersion
    simp only [hv, if_neg hv_ne]
    exact hp
  · have h2 : (getVersion store m).2 = (getSystemMeta store "versions").2 := by
      unfold getVersion
      cases hl : lookup (getSystemMeta store "versions").1.data m <;>
        simp [hl]
    rw [h2]
    exact getSystemMeta_found store "versions"

/-- Witness for C8: a never-versioned model yields the epoch and the
`"versions"` record is created; a present entry yields its parsed
timestamp. -/
theorem getVersion_reads_versions_entry_inst :
    (getVersion [] "Bar").1 = some 0
    ∧ (getVersion
        [{ name := "versions", data := [("Foo", "1970-01-02T00:00:00.000Z")] }]
        "Foo").1 = some 86400000
    ∧ (findRec (getVersion [] "Bar").2 "versions").isSome = true :=
  ⟨(getVersion_reads_versions_entry [] "Bar").1 rfl,
   (getVersion_reads_versions_entry
      [{ name := "versions", data := [("Foo", "1970-01-02T00:00:00.000Z")] }]
      "Foo").2.1 "1970-01-02T00:00:00.000Z" 86400000 rfl (by decide),
   (getVersion_reads_versions_entry [] "Bar").2.2⟩

/-! The initialization sequence. -/

theorem initSystemMeta_present {env : SqlizeState}
    (hsm : "SystemMeta" ∈ env.registeredModels
      ∨ "SystemMeta" ∈ env.sequelizeDefined) :
    initSystemMeta env [("versions", [])]
      = Except.ok
          (bulkCreateIgnoreDup env.store [{ name := "versions", data := [] }]) := by
  rcases hsm with hh | hh
  · simp [initSystemMeta, modelLookup, hh]
  · by_cases hreg : "SystemMeta" ∈ env.registeredModels
    · simp [initSystemMeta, modelLookup, hreg]
    · simp [initSystemMeta, modelLookup, hreg, hh]

theorem initSequence_run {env : SqlizeState} {files : List String}
    (ha : env.auth = Except.ok ())
    (hv : (checkDatabaseVersion env).outcome = Except.ok ())
    (hm : env.migrationFiles = Except.ok files) :
    (files = [] → initSequence env = Except.ok (InitReturn.undef, env.store))
    ∧ (files ≠ [] →
        ("SystemMeta" ∈ env.registeredModels
          ∨ "SystemMeta" ∈ env.sequelizeDefined) →
        initSequence env
          = Except.ok (InitReturn.self,
              bulkCreateIgnoreDup env.store
                [{ name := "versions", data := [] }])) := by
  constructor
  · intro hnil
    subst hnil
    unfold initSequence
    simp [ha, hv, hm]
  · intro hne hsm
    have hfe : files.isEmpty = false := by
      cases files with
      | nil => cases hne rfl
      | cons a l => rfl
    unfold initSequence
    simp [ha, hv, hm, hfe, initSystemMeta_present hsm]

/-- Claim C1 (amended): a successful initialization run returns the
connection-manager instance itself exactly when the executed-migration
list is non-empty; with no executed migrations it returns undefined (the
bare `return`), skipping the meta-seeding step. -/
theorem initSequence_self_iff_migrations (env : SqlizeState)
    (files : List String)
    (ha : env.auth = Except.ok ())
    (hv : (checkDatabaseVersion env).outcome = Except.ok ())
    (hm : env.migrationFiles = Except.ok files)
    (hsm : "SystemMeta" ∈ env.registeredModels
      ∨ "SystemMeta" ∈ env.sequelizeDefined) :
    (files ≠ [] →
      initSequence env
        = Except.ok (InitReturn.self,
            bulkCreateIgnoreDup env.store [{ name := "versions", data := [] }]))
    ∧ (files = [] →
      initSequence env = Except.ok (InitReturn.undef, env.store)) :=
  ⟨fun hne => (initSequence_run ha hv hm).2 hne hsm,
   fun hnil => (initSequence_run ha hv hm).1 hnil⟩

/-- Witness for C1: the one-migration environment returns the instance,
the zero-migration environment returns undefined. -/
theorem initSequence_self_iff_migrations_inst :
    initSequence envOneMigration
      = Except.ok (InitReturn.self, [{ name := "versions", data := [] }])
    ∧ initSequence envZeroMigrations
      = Except.ok (InitReturn.undef, []) :=
  ⟨(initSequence_self_iff_migrations envOneMigration ["20200101-setup.js"]
      rfl rfl rfl (Or.inl (by decide))).1 (by decide),
   (initSequence_self_iff_migrations envZeroMigrations []
      rfl rfl rfl (Or.inl (by decide))).2 rfl⟩

/-- Counterexample for C1 as stated: a successful run with an empty
executed-migration list resolves with undefined, not with the instance. -/
theorem initSequence_zero_migrations_undef :
    initSequence envZeroMigrations = Except.ok (InitReturn.undef, [])
    ∧ InitReturn.undef ≠ InitReturn.self := by
  refine ⟨rfl, by decide⟩

/-- Claim C2 (amended): meta-seeding happens only on successful runs whose
executed-migration list is non-empty; when it happens it creates the
`"versions"` record with an empty data mapping, and the insert is ignored
when the record already exists (idempotent). -/
theorem initSequence_meta_seeding_conditional (env : SqlizeState)
    (files : List String)
    (ha : env.auth = Except.ok ())
    (hv : (checkDatabaseVersion env).outcome = Except.ok ())
    (hm : env.migrationFiles = Except.ok files)
    (hsm : "SystemMeta" ∈ env.registeredModels
      ∨ "SystemMeta" ∈ env.sequelizeDefined) :
    (files = [] →
      initSequence env = Except.ok (InitReturn.undef, env.store))
    ∧ (files ≠ [] → findRec env.store "versions" = none →
      initSequence env
        = Except.ok (InitReturn.self,
            env.store ++ [{ name := "versions", data := [] }]))
    ∧ (files ≠ [] → ∀ r, findRec env.store "versions" = some r →
      initSequence env = Except.ok (InitReturn.self, env.store)) := by
  refine ⟨fun hnil => (initSequence_run ha hv hm).1 hnil,
    fun hne hnone => ?_, fun hne r hr => ?_⟩
  · have h := (initSequence_run ha hv hm).2 hne hsm
    rw [h]
    simp [bulkCreateIgnoreDup, hnone]
  · have h := (initSequence_run ha hv hm).2 hne hsm
    rw [h]
    simp [bulkCreateIgnoreDup, hr]

/-- Witness for C2: seeding creates the record on an empty store, leaves a
seeded store unchanged, and is skipped with no executed migrations. -/
theorem initSequence_meta_seeding_conditional_inst :
    initSequence envSeeded = Except.ok (InitReturn.self, envSeeded.store)
    ∧ initSequence envZeroMigrations = Except.ok (InitReturn.undef, []) :=
  ⟨(initSequence_meta_seeding_conditional envSeeded ["20200101-setup.js"]
      rfl rfl rfl (Or.inl (by decide))).2.2 (by decide)
      { name := "versions", data := [("Foo", "1970-01-01T00:00:01.000Z")] } rfl,
   (initSequence_meta_seeding_conditional envZeroMigrations []
      rfl rfl rfl (Or.inl (by decide))).1 rfl⟩

/-- Counterexample for C2 as stated: the zero-migration run succeeds yet
leaves the store without any `"versions"` record — the meta-seeding step
did not run. -/
theorem initSequence_zero_migrations_no_seeding :
    initSequence envZeroMigrations = Except.ok (InitReturn.undef, [])
    ∧ findRec ([] : MetaStore) "versions" = none :=
  ⟨rfl, rfl⟩

/-- Claim C3 (the code against the claim): with no model named
`SystemMeta` registered anywhere, `initSystemMeta` does not return
silently — the model lookup raises, because the Sequelize lookup the
patched `model` falls back to throws for an unknown model, so the falsy
guard inside `initSystemMeta` is unreachable. -/
theorem initSystemMeta_missing_model_throws :
    initSystemMeta envNoSystemMeta [("versions", [])]
      = Except.error { message := "SystemMeta has not been defined" } :=
  rfl

/-- Claim C6: with a range recorded for the active dialect, the check
fails with the logged error naming the dialect and the range when the
reported version is outside the range, and passes when it is inside. -/
theorem checkDatabaseVersion_enforces_range (env : SqlizeState)
    (range : String) (hr : env.pkgEngines env.dialect = some range) :
    (env.semverSatisfies env.databaseVersion range = false →
      (checkDatabaseVersion env).outcome
          = Except.error { message := requiresMsg env range }
        ∧ (checkDatabaseVersion env).errorLogs = [requiresMsg env range]
        ∧ (∃ a b : String, requiresMsg env range = a ++ env.dialect ++ b)
        ∧ (∃ a : String, requiresMsg env range = a ++ range))
    ∧ (env.semverSatisfies env.databaseVersion range = true →
      (checkDatabaseVersion env).outcome = Except.ok ()) := by
  constructor
  · intro hs
    refine ⟨?_, ?_, ?_, ?_⟩
    · unfold checkDatabaseVersion
      simp [hr, hs]
    · unfold checkDatabaseVersion
      simp [hr, hs]
    · refine ⟨"\"" ++ env.pkgName ++ "\" requires ", " " ++ range, ?_⟩
      unfold requiresMsg
      rw [String.append_assoc]
    · exact ⟨"\"" ++ env.pkgName ++ "\" requires " ++ env.dialect ++ " ", rfl⟩
  · intro hs
    unfold checkDatabaseVersion
    simp [hr, hs]

/-- Witness for C6: a failing version yields the named fatal error and the
error log; a passing version completes. -/
theorem checkDatabaseVersion_enforces_range_inst :
    (checkDatabaseVersion envRangeFail).outcome
      = Except.error { message := requiresMsg envRangeFail ">=9.6" }
    ∧ (checkDatabaseVersion envRangeFail).errorLogs
      = [requiresMsg envRangeFail ">=9.6"]
    ∧ (checkDatabaseVersion envRangePass).outcome = Except.ok () :=
  ⟨((checkDatabaseVersion_enforces_range envRangeFail ">=9.6" rfl).1 rfl).1,
   ((checkDatabaseVersion_enforces_range envRangeFail ">=9.6" rfl).1 rfl).2.1,
   (checkDatabaseVersion_enforces_range envRangePass ">=9.6" rfl).2 rfl⟩

end SqlizeSpec
